import Mathlib

/-!
Verification of the WaveformImageGenerator repository (Source/Main.cpp)
against its natural-language specification.

The program is embedded shallowly:
* real-valued quantities (`double` / `float` in the source) are modelled as `ℚ`;
* machine-integer quantities (`int` / `int64`) are modelled as `ℤ`;
* the C++ cast `(int)x` on a real value (truncation toward zero) is `cTrunc`;
* the JUCE helpers `jmin` / `jlimit` are embedded with their exact
  conditional structure (`jmin (a, b) = b < a ? b : a`,
  `jlimit (lo, hi, v) = v < lo ? lo : hi < v ? hi : v`);
* a channel's sample pointer (`buffer.getReadPointer (ch)`) is modelled as a
  total function `ℤ → ℚ`, so that the index of every memory access performed
  by the scan loop can be stated and inspected (a negative index is an
  out-of-bounds access of the real program).
-/

/-- C++ `(int)` cast of a real value: truncation toward zero. -/
def cTrunc (q : ℚ) : ℤ := if 0 ≤ q then ⌊q⌋ else ⌈q⌉

/-- JUCE `jmin (a, b)` on reals: `b < a ? b : a`. -/
def jminQ (a b : ℚ) : ℚ := if b < a then b else a

/-- JUCE `jlimit (lo, hi, v)` on reals: `v < lo ? lo : hi < v ? hi : v`. -/
def jlimitQ (lo hi v : ℚ) : ℚ := if v < lo then lo else if hi < v then hi else v

/-- JUCE `jlimit (lo, hi, v)` on integers. -/
def jlimitI (lo hi v : ℤ) : ℤ := if v < lo then lo else if hi < v then hi else v

/-- The quantities computed by `wmain` lines 119-124 from the requested
window and the decoded audio's duration and sample rate. -/
structure WindowResult where
  actualStart : ℚ
  actualEnd : ℚ
  startSample : ℤ
  numSamples : ℤ
deriving DecidableEq

/-- Time Window Resolver, embedded from Main.cpp lines 119-124:
`actualEnd = endTime <= 0 ? (endTime < 0 ? duration + endTime : duration) : endTime;`
`actualEnd = jmin (duration, actualEnd);`
`actualStart = jlimit (0.0, actualEnd, startTime);`
`startSample = (int64) (actualStart * sampleRate);`
`numSamples = (int64) ((actualEnd - actualStart) * sampleRate);` -/
def resolveWindow (startTime endTime duration sampleRate : ℚ) : WindowResult :=
  let actualEnd0 : ℚ :=
    if endTime ≤ 0 then (if endTime < 0 then duration + endTime else duration) else endTime
  let actualEnd : ℚ := jminQ duration actualEnd0
  let actualStart : ℚ := jlimitQ 0 actualEnd startTime
  ⟨actualStart, actualEnd,
    cTrunc (actualStart * sampleRate), cTrunc ((actualEnd - actualStart) * sampleRate)⟩

/-- The end time the specification prescribes (§4.1): `totalDuration` when
`requestedEnd = 0`, `totalDuration + requestedEnd` when `requestedEnd < 0`,
`requestedEnd` otherwise, then clamped to `min (totalDuration, ·)`. -/
def specActualEnd (requestedEnd totalDuration : ℚ) : ℚ :=
  min totalDuration
    (if requestedEnd = 0 then totalDuration
     else if requestedEnd < 0 then totalDuration + requestedEnd
     else requestedEnd)

/-- The clamp operation the specification's `clamp (v, lo, hi)` denotes,
written as the standard clamp conditional (`v < lo ? lo : hi < v ? hi : v`). -/
def specClamp (v lo hi : ℚ) : ℚ := if v < lo then lo else if hi < v then hi else v

/-- Column-to-sample-range mapping, start index, Main.cpp lines 144 and 146:
`sampleStart = (int) ((i / (double) width) * numSamples);`
`sampleStart = jlimit (0, (int) numSamples - 1, sampleStart);` -/
def colSampleStart (W N i : ℤ) : ℤ :=
  jlimitI 0 (N - 1) (cTrunc ((i : ℚ) / (W : ℚ) * (N : ℚ)))

/-- Column-to-sample-range mapping, end index, Main.cpp lines 145 and 147:
`sampleEnd = (int) (((i + 1) / (double) width) * numSamples);`
`sampleEnd = jlimit (0, (int) numSamples, sampleEnd);` -/
def colSampleEnd (W N i : ℤ) : ℤ :=
  jlimitI 0 N (cTrunc (((i : ℚ) + 1) / (W : ℚ) * (N : ℚ)))

/-- Claim C1's start index as the spec words it: `floor (i/W × N)` clamped
into `[0, N−1]` (result within the interval). -/
def specColStart (W N i : ℤ) : ℤ :=
  max 0 (min (N - 1) ⌊(i : ℚ) / (W : ℚ) * (N : ℚ)⌋)

/-- Claim C1's end index as the spec words it: `floor ((i+1)/W × N)` clamped
into `[0, N]`. -/
def specColEnd (W N i : ℤ) : ℤ :=
  max 0 (min N ⌊((i : ℚ) + 1) / (W : ℚ) * (N : ℚ)⌋)

/-- The sample indices the scan loop
`for (int j = sampleStart; j < sampleEnd; ++j)` (line 150) dereferences, in
order. An index outside `[0, N)` is an out-of-bounds access of `samples`. -/
def scannedIndices (s e : ℤ) : List ℤ :=
  (List.range (e - s).toNat).map (fun k => s + (k : ℤ))

/-- Min update of one scan iteration (line 152): `if (s < minVal) minVal = s;`. -/
def minStep (m x : ℚ) : ℚ := if x < m then x else m

/-- Max update of one scan iteration (line 153): `if (s > maxVal) maxVal = s;`. -/
def maxStep (m x : ℚ) : ℚ := if m < x then x else m

/-- The envelope `(minVal, maxVal)` computed by lines 149-154, seeded at
`(1.0, -1.0)` and folded over the scanned indices. -/
def scanMinMax (samples : ℤ → ℚ) (s e : ℤ) : ℚ × ℚ :=
  (scannedIndices s e).foldl
    (fun mv j => (minStep mv.1 (samples j), maxStep mv.2 (samples j))) (1, -1)

/-- The sample values of column `i`'s sub-range. -/
def subSamples (samples : ℤ → ℚ) (W N i : ℤ) : List ℚ :=
  (scannedIndices (colSampleStart W N i) (colSampleEnd W N i)).map samples

/-- Per-channel band height, line 134:
`float channelHeight = (float) height / numChannels;`. -/
def channelHeight (H C : ℤ) : ℚ := (H : ℚ) / (C : ℚ)

/-- Band top of channel `c`, line 140: `float top = ch * channelHeight;`. -/
def channelTop (H C c : ℤ) : ℚ := (c : ℚ) * channelHeight H C

/-- Band vertical center, line 141:
`float midY = top + channelHeight / 2.0f;`. -/
def channelMidY (H C c : ℤ) : ℚ := channelTop H C c + channelHeight H C / 2

/-- The horizontal band of channel `c`: pixel rows from its top (inclusive)
to the next band's top (exclusive). -/
def channelBand (H C c : ℤ) : Set ℚ :=
  Set.Ico (channelTop H C c) (channelTop H C c + channelHeight H C)

/-- The endpoints of one `g.drawLine` call. -/
structure ColumnDraw where
  x : ℚ
  y1 : ℚ
  y2 : ℚ
deriving DecidableEq

/-- The draw command emitted for column `i` of channel `c`, lines 143-162:
`y1 = midY - minVal * (channelHeight / 2.0f);`
`y2 = midY - maxVal * (channelHeight / 2.0f);`
`g.drawLine ((float) i + 0.5f, y1, (float) i + 0.5f, y2);`
(the call is unconditional: it happens whether or not the scan ran). -/
def columnDraw (samples : ℤ → ℚ) (W N H C c i : ℤ) : ColumnDraw :=
  let mv := scanMinMax samples (colSampleStart W N i) (colSampleEnd W N i)
  ⟨(i : ℚ) + 1 / 2,
    channelMidY H C c - mv.1 * (channelHeight H C / 2),
    channelMidY H C c - mv.2 * (channelHeight H C / 2)⟩

/-- All draw commands of channel `c`: one per pixel column (line 143's loop
body always reaches the `drawLine` at line 162). -/
def channelDraws (samples : ℤ → ℚ) (W N H C c : ℤ) : List ColumnDraw :=
  (List.range W.toNat).map (fun i : ℕ => columnDraw samples W N H C c (i : ℤ))

/-- Sample values from testable property §8 of the spec: one channel holding
`[0.1, -0.5, 0.3, -0.2]` (0 outside the buffer). -/
def egSamples : ℤ → ℚ := fun j =>
  if j = 0 then 1 / 10
  else if j = 1 then -1 / 2
  else if j = 2 then 3 / 10
  else if j = 3 then -1 / 5
  else 0

/-- An RGBA colour, one byte per component. -/
structure Colour where
  r : ℕ
  g : ℕ
  b : ℕ
  a : ℕ
deriving DecidableEq

/-- JUCE `Colour::fromRGBA` (each component is truncated to a `uint8`). -/
def Colour.fromRGBA (r g b a : ℕ) : Colour := ⟨r % 256, g % 256, b % 256, a % 256⟩

/-- JUCE `Colours::black` (`0xff000000`: opaque black). -/
def Colours.black : Colour := ⟨0, 0, 0, 255⟩

/-- JUCE `Colours::transparentBlack` (`0x00000000`). -/
def Colours.transparentBlack : Colour := ⟨0, 0, 0, 0⟩

/-- JUCE `Colours::white` (`0xffffffff`). -/
def Colours.white : Colour := ⟨255, 255, 255, 255⟩

/-- JUCE `CharacterFunctions::getHexDigitValue`: the value of a hex digit
(`0-9`, `a-f`, `A-F`), or `none` for any other character. -/
def getHexDigitValue (c : Char) : Option ℕ :=
  if '0' ≤ c ∧ c ≤ '9' then some (c.toNat - ('0'.toNat))
  else if 'a' ≤ c ∧ c ≤ 'f' then some (c.toNat - ('a'.toNat) + 10)
  else if 'A' ≤ c ∧ c ≤ 'F' then some (c.toNat - ('A'.toNat) + 10)
  else none

/-- One step of JUCE's hex parser loop:
`if (hexValue >= 0) result = (result << 4) | hexValue;` — a character that
is not a hex digit is skipped. The accumulator is the parser's 32-bit
integer, so it is kept modulo `2 ^ 32`. -/
def hexStep (r : ℕ) (c : Char) : ℕ :=
  match getHexDigitValue c with
  | some v => (r * 16 + v) % 2 ^ 32
  | none => r

/-- JUCE `String::getHexValue32`. -/
def getHexValue32 (s : List Char) : ℕ := s.foldl hexStep 0

/-- JUCE `String::substring (start, end)`. -/
def substringSlice (s : List Char) (a b : ℕ) : List Char := (s.take b).drop a

/-- `parseHexColor`, Main.cpp lines 29-38: a string whose length is not 8
yields `Colours::black`; otherwise the four 2-character slices are parsed
with `getHexValue32` and combined with `Colour::fromRGBA`. -/
def parseHexColor (hex : List Char) : Colour :=
  if hex.length ≠ 8 then Colours.black
  else Colour.fromRGBA
    (getHexValue32 (substringSlice hex 0 2))
    (getHexValue32 (substringSlice hex 2 4))
    (getHexValue32 (substringSlice hex 4 6))
    (getHexValue32 (substringSlice hex 6 8))

/-- The command-line options of `wmain`, lines 50-54. -/
structure Options where
  inputFile : List Char
  outputFile : List Char
  startTime : ℚ
  endTime : ℚ
  width : ℤ
  height : ℤ
  bgColor : Colour
  fgColor : Colour
deriving DecidableEq

/-- Defaults from lines 50-54: empty paths, times 0, 1920×300,
`transparentBlack` background, `white` foreground. -/
def defaultOptions : Options :=
  { inputFile := [], outputFile := [], startTime := 0, endTime := 0,
    width := 1920, height := 300,
    bgColor := Colours.transparentBlack, fgColor := Colours.white }

/-- Outcome of the argument loop, lines 56-78. -/
inductive ParseOutcome where
  | helpExit : ParseOutcome
  | usageError : ParseOutcome
  | ok : Options → ParseOutcome
deriving DecidableEq

def helpFlag : List Char := ['-', '-', 'h', 'e', 'l', 'p']

def iFlag : List Char := ['-', 'i']

def oFlag : List Char := ['-', 'o']

def sFlag : List Char := ['-', 's']

def eFlag : List Char := ['-', 'e']

def wFlag : List Char := ['-', 'w']

def hFlag : List Char := ['-', 'h']

def bFlag : List Char := ['-', 'b']

def fFlag : List Char := ['-', 'f']

/-- The argument loop of `wmain`, lines 56-78, over `argv[1..]`. `pd` and
`pI` stand for JUCE's `String::getDoubleValue` / `String::getIntValue`
(total functions: they never report an error). A known flag consumes the
next argument when one exists; `--help` exits with the help text; anything
else (unknown flag, or a known flag as the last argument) prints the help
and exits 1. Color values go through `parseHexColor` unconditionally: the
loop has no error path for them. -/
def parseLoop (pd : List Char → ℚ) (pI : List Char → ℤ) :
    List (List Char) → Options → ParseOutcome
  | [], opts => ParseOutcome.ok opts
  | [key], _ => if key = helpFlag then ParseOutcome.helpExit else ParseOutcome.usageError
  | key :: v :: rest, opts =>
    if key = helpFlag then ParseOutcome.helpExit
    else if key = iFlag then parseLoop pd pI rest { opts with inputFile := v }
    else if key = oFlag then parseLoop pd pI rest { opts with outputFile := v }
    else if key = sFlag then parseLoop pd pI rest { opts with startTime := pd v }
    else if key = eFlag then parseLoop pd pI rest { opts with endTime := pd v }
    else if key = wFlag then parseLoop pd pI rest { opts with width := pI v }
    else if key = hFlag then parseLoop pd pI rest { opts with height := pI v }
    else if key = bFlag then parseLoop pd pI rest { opts with bgColor := parseHexColor v }
    else if key = fFlag then parseLoop pd pI rest { opts with fgColor := parseHexColor v }
    else ParseOutcome.usageError

/-- `constexpr int maxImageDimension = 16384;` (line 6). -/
def maxImageDimension : ℤ := 16384

/-- How far `wmain` gets before touching the audio file. -/
inductive MainOutcome where
  | helpExit : MainOutcome
  | exitUsage : MainOutcome
  | exitDimension : MainOutcome
  | proceedsToLoad : Options → MainOutcome
deriving DecidableEq

/-- The validation prefix of `wmain`, lines 44-90: the `argc < 2` check, the
argument loop, the required-argument check (line 80), and the oversized
dimension check (line 86: `width > maxImageDimension || height > maxImageDimension`).
`proceedsToLoad` means control reaches the audio loading and rendering code
with the given options (the I/O steps in between are external). -/
def mainPipeline (pd : List Char → ℚ) (pI : List Char → ℤ)
    (args : List (List Char)) : MainOutcome :=
  if args = [] then MainOutcome.exitUsage
  else
    match parseLoop pd pI args defaultOptions with
    | ParseOutcome.helpExit => MainOutcome.helpExit
    | ParseOutcome.usageError => MainOutcome.exitUsage
    | ParseOutcome.ok opts =>
      if opts.inputFile = [] ∨ opts.outputFile = [] then MainOutcome.exitUsage
      else if maxImageDimension < opts.width ∨ maxImageDimension < opts.height then
        MainOutcome.exitDimension
      else MainOutcome.proceedsToLoad opts

/-- State after the unconditional delete of lines 167-168
(`if (output.existsAsFile()) output.deleteFile();`), on the file-system
state at the output path (`none` = no file, `some bytes` = file content). -/
def afterDeleteStep (prev : Option (List ℕ)) : Option (List ℕ) :=
  if prev.isSome then none else prev

/-- State after `FileOutputStream outputStream (output);` (line 171): the
stream creates the file if it is absent and positions itself at its end. -/
def afterOpenStep (st : Option (List ℕ)) : Option (List ℕ) :=
  match st with
  | none => some []
  | some d => some d

/-- The output-saving sequence, lines 166-179: delete any existing file,
open the stream, then encode. `encodeResult` is the external PNG encoder's
outcome: `some data` on a successful full encode (written to the file, exit
code 0), `none` on failure (exit code 1, the file keeps whatever the failed
stream holds — modelled as the freshly created empty file; the previous
content is gone either way because of the upfront delete). -/
def saveOutput (prev encodeResult : Option (List ℕ)) : Option (List ℕ) × ℕ :=
  match encodeResult with
  | none => (afterOpenStep (afterDeleteStep prev), 1)
  | some data => (some data, 0)

-- Helper lemmas about the embedded primitives.

theorem cTrunc_of_nonneg {q : ℚ} (h : 0 ≤ q) : cTrunc q = ⌊q⌋ := if_pos h

theorem jminQ_eq_min (a b : ℚ) : jminQ a b = min a b := by
  unfold jminQ
  rcases lt_or_ge b a with h | h
  · rw [if_pos h, min_eq_right h.le]
  · rw [if_neg (not_lt.mpr h), min_eq_left h]

theorem jlimitQ_mem {lo hi v : ℚ} (h : lo ≤ hi) :
    lo ≤ jlimitQ lo hi v ∧ jlimitQ lo hi v ≤ hi := by
  unfold jlimitQ
  split_ifs with h1 h2
  · exact ⟨le_refl _, h⟩
  · exact ⟨h, le_refl _⟩
  · exact ⟨not_lt.mp h1, not_lt.mp h2⟩

theorem jlimitI_eq_clamp {lo hi : ℤ} (v : ℤ) (h : lo ≤ hi) :
    jlimitI lo hi v = max lo (min hi v) := by
  unfold jlimitI
  split_ifs with h1 h2 <;> omega

/-- Claim C2: the Time Window Resolver computes exactly the specified
`actualEnd` (the three-way case split followed by the clamp to
`min (totalDuration, ·)`) and `actualStart = clamp (requestedStart, 0, actualEnd)`,
for every requested window over a non-negative total duration; and on
`totalDuration = 100`, `requestedStart = 5` the three specified examples hold:
`requestedEnd = 30 ↦ (5, 30)`, `requestedEnd = 0 ↦ (5, 100)`,
`requestedEnd = -10 ↦ (5, 90)`. -/
theorem C2_window_resolution (s e d r : ℚ) (hd : 0 ≤ d) :
    (resolveWindow s e d r).actualEnd = specActualEnd e d ∧
    (resolveWindow s e d r).actualStart = specClamp s 0 (specActualEnd e d) ∧
    (resolveWindow 5 30 100 r).actualStart = 5 ∧
    (resolveWindow 5 30 100 r).actualEnd = 30 ∧
    (resolveWindow 5 0 100 r).actualStart = 5 ∧
    (resolveWindow 5 0 100 r).actualEnd = 100 ∧
    (resolveWindow 5 (-10) 100 r).actualStart = 5 ∧
    (resolveWindow 5 (-10) 100 r).actualEnd = 90 := by
  have hend : ∀ e' d' : ℚ,
      jminQ d' (if e' ≤ 0 then (if e' < 0 then d' + e' else d') else e') =
        specActualEnd e' d' := by
    intro e' d'
    rw [jminQ_eq_min]
    unfold specActualEnd
    rcases lt_trichotomy e' 0 with h | h | h
    · rw [if_pos h.le, if_pos h, if_neg h.ne, if_pos h]
    · subst h; rw [if_pos le_rfl, if_neg (lt_irrefl 0), if_pos rfl]
    · rw [if_neg (not_le.mpr h), if_neg h.ne', if_neg (not_lt.mpr h.le)]
  refine ⟨hend e d, ?_, ?_, ?_, ?_, ?_, ?_, ?_⟩
  · show jlimitQ 0
        (jminQ d (if e ≤ 0 then (if e < 0 then d + e else d) else e)) s =
      specClamp s 0 (specActualEnd e d)
    rw [hend e d]; rfl
  all_goals norm_num [resolveWindow, jminQ, jlimitQ]

/-- Witness for C2 at `s = 5`, `e = 30`, `d = 100`, `r = 1`. -/
theorem C2_window_resolution_witness :
    (resolveWindow 5 30 100 1).actualEnd = specActualEnd 30 100 ∧
    (resolveWindow 5 30 100 1).actualStart = specClamp 5 0 (specActualEnd 30 100) ∧
    (resolveWindow 5 30 100 1).actualStart = 5 ∧
    (resolveWindow 5 30 100 1).actualEnd = 30 :=
  have h := C2_window_resolution 5 30 100 1 (by norm_num)
  ⟨h.1, h.2.1, h.2.2.1, h.2.2.2.1⟩

/-- Claim C6 counterexample: at `requestedStart = 5`, `requestedEnd = -200`,
`totalDuration = 100` (non-negative), `sampleRate = 1` (positive), the
resolver produces `startSample = -100`, which is not `≥ 0`: the claim that
both outputs are always non-negative is false on the code (`actualEnd`
becomes `-100` and the `jlimit (0, actualEnd, startTime)` call with an
upper bound below the lower bound returns that negative upper bound). -/
theorem C6_counterexample :
    (resolveWindow 5 (-200) 100 1).startSample = -100 ∧
    ¬ 0 ≤ (resolveWindow 5 (-200) 100 1).startSample := by
  have h : (resolveWindow 5 (-200) 100 1).startSample = -100 := by
    norm_num [resolveWindow, jminQ, jlimitQ, cTrunc, Int.ceil_neg]
  refine ⟨h, ?_⟩
  rw [h]; norm_num

/-- Claim C6 amended: `startSample = trunc (actualStart × sampleRate)` and
`numSamples = trunc ((actualEnd − actualStart) × sampleRate)` are each `≥ 0`
for every requested window with non-negative total duration and positive
sample rate, provided the resolved `actualEnd` is non-negative (a
`requestedEnd` below `−totalDuration` makes `actualEnd` negative and
`startSample` can then be negative, as the counterexample shows). -/
theorem C6_samples_nonneg (s e d r : ℚ) (hd : 0 ≤ d) (hr : 0 < r)
    (hend : 0 ≤ (resolveWindow s e d r).actualEnd) :
    0 ≤ (resolveWindow s e d r).startSample ∧
    0 ≤ (resolveWindow s e d r).numSamples := by
  have hmem : 0 ≤ (resolveWindow s e d r).actualStart ∧
      (resolveWindow s e d r).actualStart ≤ (resolveWindow s e d r).actualEnd :=
    jlimitQ_mem hend
  constructor
  · show 0 ≤ cTrunc ((resolveWindow s e d r).actualStart * r)
    have h1 : 0 ≤ (resolveWindow s e d r).actualStart * r := mul_nonneg hmem.1 hr.le
    rw [cTrunc_of_nonneg h1]
    exact Int.floor_nonneg.mpr h1
  · show 0 ≤ cTrunc
      (((resolveWindow s e d r).actualEnd - (resolveWindow s e d r).actualStart) * r)
    have h2 : 0 ≤
        ((resolveWindow s e d r).actualEnd - (resolveWindow s e d r).actualStart) * r :=
      mul_nonneg (sub_nonneg.mpr hmem.2) hr.le
    rw [cTrunc_of_nonneg h2]
    exact Int.floor_nonneg.mpr h2

/-- Witness for the amended C6 at `s = 5`, `e = 30`, `d = 100`, `r = 2`. -/
theorem C6_samples_nonneg_witness :
    0 ≤ (resolveWindow 5 30 100 2).startSample ∧
    0 ≤ (resolveWindow 5 30 100 2).numSamples :=
  C6_samples_nonneg 5 30 100 2 (by norm_num) (by norm_num)
    (by norm_num [resolveWindow, jminQ])

theorem scanFold_split (samples : ℤ → ℚ) (l : List ℤ) (a b : ℚ) :
    l.foldl (fun mv j => (minStep mv.1 (samples j), maxStep mv.2 (samples j))) (a, b) =
      (l.foldl (fun m j => minStep m (samples j)) a,
       l.foldl (fun m j => maxStep m (samples j)) b) := by
  induction l generalizing a b with
  | nil => rfl
  | cons c t ih => simp only [List.foldl_cons]; exact ih _ _

theorem scanMinMax_eq (samples : ℤ → ℚ) (s e : ℤ) :
    scanMinMax samples s e =
      (((scannedIndices s e).map samples).foldl minStep 1,
       ((scannedIndices s e).map samples).foldl maxStep (-1)) := by
  unfold scanMinMax
  rw [scanFold_split, List.foldl_map, List.foldl_map]

theorem foldl_minStep_mem (l : List ℚ) (a : ℚ) : l.foldl minStep a ∈ a :: l := by
  induction l generalizing a with
  | nil => exact List.mem_singleton.mpr rfl
  | cons c t ih =>
    rw [List.foldl_cons]
    have hstep : minStep a c = a ∨ minStep a c = c := by
      unfold minStep
      split_ifs with h
      · exact Or.inr rfl
      · exact Or.inl rfl
    rcases List.mem_cons.mp (ih (minStep a c)) with h | h
    · rcases hstep with h2 | h2 <;> rw [h, h2]
      · exact List.mem_cons_self _ _
      · exact List.mem_cons_of_mem _ (List.mem_cons_self _ _)
    · exact List.mem_cons_of_mem _ (List.mem_cons_of_mem _ h)

theorem foldl_minStep_le (l : List ℚ) (a : ℚ) :
    ∀ y ∈ a :: l, l.foldl minStep a ≤ y := by
  induction l generalizing a with
  | nil =>
    intro y hy
    rw [List.mem_singleton] at hy
    exact hy ▸ le_refl _
  | cons c t ih =>
    intro y hy
    rw [List.foldl_cons]
    have h1 : minStep a c ≤ a := by
      unfold minStep
      split_ifs with h
      · exact h.le
      · exact le_refl a
    have h2 : minStep a c ≤ c := by
      unfold minStep
      split_ifs with h
      · exact le_refl c
      · exact not_lt.mp h
    have hseed : t.foldl minStep (minStep a c) ≤ minStep a c :=
      ih (minStep a c) _ (List.mem_cons_self _ _)
    rcases List.mem_cons.mp hy with rfl | hy2
    · exact hseed.trans h1
    rcases List.mem_cons.mp hy2 with rfl | hy3
    · exact hseed.trans h2
    · exact ih (minStep a c) y (List.mem_cons_of_mem _ hy3)

theorem foldl_maxStep_mem (l : List ℚ) (a : ℚ) : l.foldl maxStep a ∈ a :: l := by
  induction l generalizing a with
  | nil => exact List.mem_singleton.mpr rfl
  | cons c t ih =>
    rw [List.foldl_cons]
    have hstep : maxStep a c = a ∨ maxStep a c = c := by
      unfold maxStep
      split_ifs with h
      · exact Or.inr rfl
      · exact Or.inl rfl
    rcases List.mem_cons.mp (ih (maxStep a c)) with h | h
    · rcases hstep with h2 | h2 <;> rw [h, h2]
      · exact List.mem_cons_self _ _
      · exact List.mem_cons_of_mem _ (List.mem_cons_self _ _)
    · exact List.mem_cons_of_mem _ (List.mem_cons_of_mem _ h)

theorem foldl_maxStep_ge (l : List ℚ) (a : ℚ) :
    ∀ y ∈ a :: l, y ≤ l.foldl maxStep a := by
  induction l generalizing a with
  | nil =>
    intro y hy
    rw [List.mem_singleton] at hy
    exact hy ▸ le_refl _
  | cons c t ih =>
    intro y hy
    rw [List.foldl_cons]
    have h1 : a ≤ maxStep a c := by
      unfold maxStep
      split_ifs with h
      · exact h.le
      · exact le_refl a
    have h2 : c ≤ maxStep a c := by
      unfold maxStep
      split_ifs with h
      · exact le_refl c
      · exact not_lt.mp h
    have hseed : maxStep a c ≤ t.foldl maxStep (maxStep a c) :=
      ih (maxStep a c) _ (List.mem_cons_self _ _)
    rcases List.mem_cons.mp hy with rfl | hy2
    · exact h1.trans hseed
    rcases List.mem_cons.mp hy2 with rfl | hy3
    · exact h2.trans hseed
    · exact ih (maxStep a c) y (List.mem_cons_of_mem _ hy3)

/-- Claim C1: for every pixel column `i ∈ [0, W)` over a non-empty sample
range (`N ≥ 1`), the code's `sampleStart` and `sampleEnd` equal the spec's
`floor (i/W × N)` and `floor ((i+1)/W × N)` clamped into `[0, N−1]` and
`[0, N]` respectively (and lie inside those intervals); the computed
envelope `(minVal, maxVal)` is exactly the minimum and the maximum of the
sub-range's sample values seeded with `+1.0` and `−1.0`; and for `W = 1` the
single column spans all samples (`sampleStart = 0`, `sampleEnd = N`). -/
theorem C1_column_envelope (W N i : ℤ) (samples : ℤ → ℚ)
    (hN : 1 ≤ N) (hi0 : 0 ≤ i) (hiW : i < W) :
    colSampleStart W N i = specColStart W N i ∧
    colSampleEnd W N i = specColEnd W N i ∧
    0 ≤ colSampleStart W N i ∧ colSampleStart W N i ≤ N - 1 ∧
    0 ≤ colSampleEnd W N i ∧ colSampleEnd W N i ≤ N ∧
    (scanMinMax samples (colSampleStart W N i) (colSampleEnd W N i)).1 ∈
        (1 : ℚ) :: subSamples samples W N i ∧
    (∀ y ∈ (1 : ℚ) :: subSamples samples W N i,
        (scanMinMax samples (colSampleStart W N i) (colSampleEnd W N i)).1 ≤ y) ∧
    (scanMinMax samples (colSampleStart W N i) (colSampleEnd W N i)).2 ∈
        (-1 : ℚ) :: subSamples samples W N i ∧
    (∀ y ∈ (-1 : ℚ) :: subSamples samples W N i,
        y ≤ (scanMinMax samples (colSampleStart W N i) (colSampleEnd W N i)).2) ∧
    (W = 1 → colSampleStart W N i = 0 ∧ colSampleEnd W N i = N) := by
  have hW : 0 < W := lt_of_le_of_lt hi0 hiW
  have hWQ : (0 : ℚ) < (W : ℚ) := by exact_mod_cast hW
  have hNQ : (0 : ℚ) ≤ (N : ℚ) := by exact_mod_cast (by omega : (0 : ℤ) ≤ N)
  have hq1 : (0 : ℚ) ≤ (i : ℚ) / (W : ℚ) * (N : ℚ) :=
    mul_nonneg (div_nonneg (by exact_mod_cast hi0) hWQ.le) hNQ
  have hq2 : (0 : ℚ) ≤ ((i : ℚ) + 1) / (W : ℚ) * (N : ℚ) :=
    mul_nonneg (div_nonneg (by positivity) hWQ.le) hNQ
  have hstart : colSampleStart W N i = specColStart W N i := by
    unfold colSampleStart specColStart
    rw [cTrunc_of_nonneg hq1, jlimitI_eq_clamp _ (by omega : (0 : ℤ) ≤ N - 1)]
  have hend : colSampleEnd W N i = specColEnd W N i := by
    unfold colSampleEnd specColEnd
    rw [cTrunc_of_nonneg hq2, jlimitI_eq_clamp _ (by omega : (0 : ℤ) ≤ N)]
  have hmm := scanMinMax_eq samples (colSampleStart W N i) (colSampleEnd W N i)
  have hsubs : subSamples samples W N i =
      (scannedIndices (colSampleStart W N i) (colSampleEnd W N i)).map samples := rfl
  refine ⟨hstart, hend, ?_, ?_, ?_, ?_, ?_, ?_, ?_, ?_, ?_⟩
  · rw [hstart]; exact le_max_left _ _
  · rw [hstart]; exact max_le (by omega) (min_le_left _ _)
  · rw [hend]; exact le_max_left _ _
  · rw [hend]; exact max_le (by omega) (min_le_left _ _)
  · rw [hmm, hsubs]; exact foldl_minStep_mem _ _
  · rw [hmm, hsubs]; exact foldl_minStep_le _ _
  · rw [hmm, hsubs]; exact foldl_maxStep_mem _ _
  · rw [hmm, hsubs]; exact foldl_maxStep_ge _ _
  · intro hW1
    subst hW1
    have hi : i = 0 := by omega
    subst hi
    constructor
    · unfold colSampleStart
      have hz : ((0 : ℤ) : ℚ) / ((1 : ℤ) : ℚ) * (N : ℚ) = 0 := by push_cast; ring
      rw [hz, cTrunc_of_nonneg le_rfl, Int.floor_zero]
      unfold jlimitI
      rw [if_neg (lt_irrefl 0), if_neg (by omega : ¬ (N - 1 : ℤ) < 0)]
    · unfold colSampleEnd
      have hn : (((0 : ℤ) : ℚ) + 1) / ((1 : ℤ) : ℚ) * (N : ℚ) = (N : ℚ) := by
        push_cast; ring
      rw [hn, cTrunc_of_nonneg hNQ, Int.floor_intCast]
      unfold jlimitI
      rw [if_neg (by omega : ¬ N < 0), if_neg (lt_irrefl N)]

/-- Witness for C1 at `W = 1`, `N = 4`, `i = 0` with the channel
`[0.1, -0.5, 0.3, -0.2]`: the single column spans all four samples and its
envelope is `(-0.5, 0.3)`. -/
theorem C1_column_envelope_witness :
    colSampleStart 1 4 0 = 0 ∧ colSampleEnd 1 4 0 = 4 ∧
    colSampleStart 1 4 0 = specColStart 1 4 0 ∧
    colSampleEnd 1 4 0 = specColEnd 1 4 0 ∧
    (scanMinMax egSamples (colSampleStart 1 4 0) (colSampleEnd 1 4 0)).1 = -1 / 2 ∧
    (scanMinMax egSamples (colSampleStart 1 4 0) (colSampleEnd 1 4 0)).2 = 3 / 10 := by
  have h := C1_column_envelope 1 4 0 egSamples (by norm_num) le_rfl (by norm_num)
  have hW := h.2.2.2.2.2.2.2.2.2.2 rfl
  refine ⟨hW.1, hW.2, h.1, h.2.1, ?_, ?_⟩ <;> rw [hW.1, hW.2]
  · have hl : scannedIndices 0 4 = [0, 1, 2, 3] := by decide
    unfold scanMinMax
    rw [hl]
    norm_num [egSamples, minStep, maxStep]
  · have hl : scannedIndices 0 4 = [0, 1, 2, 3] := by decide
    unfold scanMinMax
    rw [hl]
    norm_num [egSamples, minStep, maxStep]

/-- Claim C4 (evidence of the code bug): for an empty sample range (`N = 0`,
zero-length audio) with `W = 1`, column 0's index computation produces
`sampleStart = -1` (because `jlimit (0, N - 1, 0)` with upper bound `-1`
below the lower bound returns `-1`), `sampleEnd = 0`, and the scan loop then
dereferences sample index `-1`: an out-of-bounds access below the start of
the buffer, contradicting the claim that every per-column index computation
stays within bounds and that no negative-index access occurs. -/
theorem C4_negative_index_access :
    colSampleStart 1 0 0 = -1 ∧
    colSampleEnd 1 0 0 = 0 ∧
    scannedIndices (colSampleStart 1 0 0) (colSampleEnd 1 0 0) = [-1] := by
  have h1 : colSampleStart 1 0 0 = -1 := by
    norm_num [colSampleStart, jlimitI, cTrunc]
  have h2 : colSampleEnd 1 0 0 = 0 := by
    norm_num [colSampleEnd, jlimitI, cTrunc]
  refine ⟨h1, h2, ?_⟩
  rw [h1, h2]
  decide

/-- Claim C3 (evidence of the code bug): with `N = 1` sample and `W = 2`
columns (height 300, one channel), column 0's sub-range is empty
(`sampleStart = sampleEnd = 0`), the scan loop never runs, yet the
unconditional `drawLine` at line 162 still fires with the seed values
`minVal = 1.0`, `maxVal = -1.0`, producing a full-height segment from
`y = 0` (band top) to `y = 300` (band bottom) — the "visually wrong
full-height streak" the spec warns about — instead of leaving the column's
band pixels at `backgroundColor`. One draw command is emitted for every one
of the two columns. -/
theorem C3_empty_range_draws_streak :
    colSampleStart 2 1 0 = colSampleEnd 2 1 0 ∧
    (columnDraw (fun _ => 0) 2 1 300 1 0 0).y1 = 0 ∧
    (columnDraw (fun _ => 0) 2 1 300 1 0 0).y2 = 300 ∧
    channelTop 300 1 0 = 0 ∧
    channelTop 300 1 0 + channelHeight 300 1 = 300 ∧
    (channelDraws (fun _ => 0) 2 1 300 1 0).length = 2 := by
  have hs : colSampleStart 2 1 0 = 0 := by
    norm_num [colSampleStart, jlimitI, cTrunc]
  have he : colSampleEnd 2 1 0 = 0 := by
    norm_num [colSampleEnd, jlimitI, cTrunc]
  have hscan : scanMinMax (fun _ => (0 : ℚ)) 0 0 = (1, -1) := rfl
  refine ⟨hs.trans he.symm, ?_, ?_, ?_, ?_, ?_⟩
  · show channelMidY 300 1 0 -
        (scanMinMax (fun _ => (0 : ℚ)) (colSampleStart 2 1 0) (colSampleEnd 2 1 0)).1 *
          (channelHeight 300 1 / 2) = 0
    rw [hs, he, hscan]
    norm_num [channelMidY, channelTop, channelHeight]
  · show channelMidY 300 1 0 -
        (scanMinMax (fun _ => (0 : ℚ)) (colSampleStart 2 1 0) (colSampleEnd 2 1 0)).2 *
          (channelHeight 300 1 / 2) = 300
    rw [hs, he, hscan]
    norm_num [channelMidY, channelTop, channelHeight]
  · norm_num [channelTop]
  · norm_num [channelTop, channelHeight]
  · unfold channelDraws
    rw [List.length_map, List.length_range]
    rfl

/-- Claim C5: for channel count `C ≥ 1` and positive height `H`, each
channel `c` gets the band of height `channelHeight = H/C` (real-valued
division) starting at `top = c × channelHeight` with vertical center
`midY = top + channelHeight/2`; bands are stacked top to bottom (tops
strictly increase with the channel index) and pairwise disjoint; and for
`H = 300`, `C = 2` the centers are `y = 75` and `y = 225`. -/
theorem C5_channel_bands (H C : ℤ) (hC : 1 ≤ C) (hH : 0 < H) :
    (∀ c c' : ℤ, c ≠ c' → Disjoint (channelBand H C c) (channelBand H C c')) ∧
    (∀ c c' : ℤ, c < c' → channelTop H C c < channelTop H C c') ∧
    (∀ c : ℤ, channelMidY H C c =
      (c : ℚ) * ((H : ℚ) / (C : ℚ)) + ((H : ℚ) / (C : ℚ)) / 2) ∧
    channelMidY 300 2 0 = 75 ∧ channelMidY 300 2 1 = 225 := by
  have hpos : 0 < channelHeight H C := by
    unfold channelHeight
    have h1 : (0 : ℚ) < (H : ℚ) := by exact_mod_cast hH
    have h2 : (0 : ℚ) < (C : ℚ) := by exact_mod_cast (by omega : (0 : ℤ) < C)
    exact div_pos h1 h2
  have hstack : ∀ c c' : ℤ, c < c' → channelTop H C c < channelTop H C c' := by
    intro c c' hlt
    unfold channelTop
    exact mul_lt_mul_of_pos_right (by exact_mod_cast hlt) hpos
  have hkey : ∀ c c' : ℤ, c < c' →
      Disjoint (channelBand H C c) (channelBand H C c') := by
    intro c c' hlt
    unfold channelBand
    rw [Set.Ico_disjoint_Ico]
    have htops : channelTop H C c + channelHeight H C ≤ channelTop H C c' := by
      unfold channelTop
      have hc1 : (c : ℚ) + 1 ≤ (c' : ℚ) := by exact_mod_cast hlt
      calc (c : ℚ) * channelHeight H C + channelHeight H C
          = ((c : ℚ) + 1) * channelHeight H C := by ring
        _ ≤ (c' : ℚ) * channelHeight H C :=
            mul_le_mul_of_nonneg_right hc1 hpos.le
    calc min (channelTop H C c + channelHeight H C)
          (channelTop H C c' + channelHeight H C)
        ≤ channelTop H C c + channelHeight H C := min_le_left _ _
      _ ≤ channelTop H C c' := htops
      _ ≤ max (channelTop H C c) (channelTop H C c') := le_max_right _ _
  refine ⟨?_, hstack, fun c => rfl, ?_, ?_⟩
  · intro c c' hne
    rcases hne.lt_or_lt with hlt | hlt
    · exact hkey c c' hlt
    · exact (hkey c' c hlt).symm
  · norm_num [channelMidY, channelTop, channelHeight]
  · norm_num [channelMidY, channelTop, channelHeight]

/-- Witness for C5 at `H = 300`, `C = 2`: the two bands are disjoint, stacked,
and centered at 75 and 225. -/
theorem C5_channel_bands_witness :
    Disjoint (channelBand 300 2 0) (channelBand 300 2 1) ∧
    channelTop 300 2 0 < channelTop 300 2 1 ∧
    channelMidY 300 2 0 = 75 ∧ channelMidY 300 2 1 = 225 :=
  have h := C5_channel_bands 300 2 (by norm_num) (by norm_num)
  ⟨h.1 0 1 (by norm_num), h.2.1 0 1 (by norm_num), h.2.2.2.1, h.2.2.2.2⟩

theorem hexAccum_filter (cs : List Char) (r : ℕ) :
    cs.foldl hexStep r =
      (cs.filter (fun c => (getHexDigitValue c).isSome)).foldl hexStep r := by
  induction cs generalizing r with
  | nil => rfl
  | cons c t ih =>
    rw [List.foldl_cons, List.filter_cons]
    cases h : getHexDigitValue c with
    | some v =>
      simp only [Option.isSome_some, if_true]
      rw [List.foldl_cons]
      exact ih (hexStep r c)
    | none =>
      have hid : hexStep r c = r := by unfold hexStep; rw [h]
      simp only [Option.isSome_none, Bool.false_eq_true, if_false]
      rw [hid]
      exact ih r

theorem getHexValue32_skips_nonhex (cs : List Char) :
    getHexValue32 cs =
      getHexValue32 (cs.filter (fun c => (getHexDigitValue c).isSome)) :=
  hexAccum_filter cs 0

theorem getHexValue32_all_nonhex {cs : List Char}
    (h : ∀ c ∈ cs, getHexDigitValue c = none) : getHexValue32 cs = 0 := by
  induction cs with
  | nil => rfl
  | cons c t ih =>
    unfold getHexValue32 at *
    rw [List.foldl_cons]
    have hc : hexStep 0 c = 0 := by
      unfold hexStep
      rw [h c (List.mem_cons_self _ _)]
    rw [hc]
    exact ih (fun x hx => h x (List.mem_cons_of_mem _ hx))

/-- Claim C10: a color string of length exactly 8 is always parsed, never
rejected: `parseHexColor` takes the component branch (each 2-character
slice through `getHexValue32` and `Colour::fromRGBA`); `getHexValue32`
ignores every character that is not a hex digit; and an 8-character string
with no hex digit at all parses to RGBA `(0, 0, 0, 0)`. -/
theorem C10_malformed_never_rejected (hex : List Char) (h8 : hex.length = 8) :
    parseHexColor hex = Colour.fromRGBA
      (getHexValue32 (substringSlice hex 0 2))
      (getHexValue32 (substringSlice hex 2 4))
      (getHexValue32 (substringSlice hex 4 6))
      (getHexValue32 (substringSlice hex 6 8)) ∧
    (∀ cs : List Char, getHexValue32 cs =
      getHexValue32 (cs.filter (fun c => (getHexDigitValue c).isSome))) ∧
    ((∀ c ∈ hex, getHexDigitValue c = none) →
      parseHexColor hex = Colour.fromRGBA 0 0 0 0) := by
  have hbranch : parseHexColor hex = Colour.fromRGBA
      (getHexValue32 (substringSlice hex 0 2))
      (getHexValue32 (substringSlice hex 2 4))
      (getHexValue32 (substringSlice hex 4 6))
      (getHexValue32 (substringSlice hex 6 8)) := by
    unfold parseHexColor
    rw [if_neg (by rw [h8]; exact fun hc => hc rfl)]
  refine ⟨hbranch, fun cs => getHexValue32_skips_nonhex cs, ?_⟩
  intro hall
  have hz : ∀ a b : ℕ, getHexValue32 (substringSlice hex a b) = 0 := by
    intro a b
    apply getHexValue32_all_nonhex
    intro c hc
    exact hall c (List.take_subset _ _ (List.drop_subset _ _ hc))
  rw [hbranch, hz, hz, hz, hz]

/-- Witness for C10: eight characters with no hex digit in them parse to
RGBA `(0, 0, 0, 0)` — no error, no black default. -/
theorem C10_malformed_never_rejected_witness :
    parseHexColor ['Z', 'Z', 'Z', 'Z', 'Z', 'Z', 'Z', 'Z'] =
      Colour.fromRGBA 0 0 0 0 :=
  (C10_malformed_never_rejected ['Z', 'Z', 'Z', 'Z', 'Z', 'Z', 'Z', 'Z']
    (by decide)).2.2 (by decide)

/-- Claim C8 (evidence of the code/spec divergence): `parseHexColor` applied
to the 3-character string `abc` silently returns `Colours::black`; fed
through the whole validation pipeline as the value of `-b`, the program does
not stop with a usage error — it proceeds to load and render with the black
background — contradicting the claim that a color value that is not exactly
8 hex characters leads to help output and exit code 1. -/
theorem C8_silent_black_default :
    parseHexColor ['a', 'b', 'c'] = Colours.black ∧
    ['a', 'b', 'c'].length ≠ 8 ∧
    mainPipeline (fun _ => 0) (fun _ => 0)
        [iFlag, ['x'], oFlag, ['y'], bFlag, ['a', 'b', 'c']] =
      MainOutcome.proceedsToLoad
        ⟨['x'], ['y'], 0, 0, 1920, 300, Colours.black, Colours.white⟩ := by
  refine ⟨rfl, by decide, ?_⟩
  rfl

/-- Claim C9 counterexample: with arguments `-i x -o y -w 0` the whole
validation prefix passes (the only dimension check, line 86, tests
`width > 16384 || height > 16384`) and the program proceeds to rendering
with `width = 0`, which is not positive — so the claim that the rasterizer
is only ever invoked with positive width and height is false on the code. -/
theorem C9_counterexample :
    mainPipeline (fun _ => 0) (fun _ => 0)
        [iFlag, ['x'], oFlag, ['y'], wFlag, ['0']] =
      MainOutcome.proceedsToLoad
        ⟨['x'], ['y'], 0, 0, 0, 300, Colours.transparentBlack, Colours.white⟩ ∧
    ¬ (0 : ℤ) <
      (⟨['x'], ['y'], 0, 0, 0, 300, Colours.transparentBlack,
        Colours.white⟩ : Options).width :=
  ⟨rfl, by decide⟩

/-- Claim C9 amended: the caller's only canvas validation is the upper
bound: whenever control proceeds to loading and rendering, the width and
height are at most 16384 (and a parsed option set whose width or height
exceeds 16384 is stopped with the dimension error, exit code 1, before any
rendering); positivity of width and height is not enforced — zero or
negative dimensions pass the guard (see the counterexample). -/
theorem C9_dimension_guard (pd : List Char → ℚ) (pI : List Char → ℤ)
    (args : List (List Char)) (opts : Options) :
    (mainPipeline pd pI args = MainOutcome.proceedsToLoad opts →
      opts.width ≤ maxImageDimension ∧ opts.height ≤ maxImageDimension) ∧
    (∀ o : Options, parseLoop pd pI args defaultOptions = ParseOutcome.ok o →
      ¬ o.inputFile = [] → ¬ o.outputFile = [] →
      (maxImageDimension < o.width ∨ maxImageDimension < o.height) →
      mainPipeline pd pI args = MainOutcome.exitDimension) := by
  constructor
  · intro h
    unfold mainPipeline at h
    by_cases h0 : args = []
    · rw [if_pos h0] at h; cases h
    rw [if_neg h0] at h
    cases hp : parseLoop pd pI args defaultOptions with
    | helpExit => rw [hp] at h; cases h
    | usageError => rw [hp] at h; cases h
    | ok o =>
      rw [hp] at h
      have h3 : (if o.inputFile = [] ∨ o.outputFile = [] then MainOutcome.exitUsage
          else if maxImageDimension < o.width ∨ maxImageDimension < o.height then
            MainOutcome.exitDimension
          else MainOutcome.proceedsToLoad o) = MainOutcome.proceedsToLoad opts := h
      by_cases h1 : o.inputFile = [] ∨ o.outputFile = []
      · rw [if_pos h1] at h3; cases h3
      rw [if_neg h1] at h3
      by_cases h2 : maxImageDimension < o.width ∨ maxImageDimension < o.height
      · rw [if_pos h2] at h3; cases h3
      rw [if_neg h2] at h3
      cases h3
      push_neg at h2
      exact ⟨h2.1, h2.2⟩
  · intro o hp hin hout hdim
    have hargs : args ≠ [] := by
      intro h0
      rw [h0] at hp
      have h1 : ParseOutcome.ok defaultOptions = ParseOutcome.ok o := hp
      cases h1
      exact hin rfl
    unfold mainPipeline
    rw [if_neg hargs, hp]
    show (if o.inputFile = [] ∨ o.outputFile = [] then MainOutcome.exitUsage
      else if maxImageDimension < o.width ∨ maxImageDimension < o.height then
        MainOutcome.exitDimension
      else MainOutcome.proceedsToLoad o) = MainOutcome.exitDimension
    rw [if_neg (by push_neg; exact ⟨hin, hout⟩), if_pos hdim]

/-- Witness for the amended C9: with `-i x -o y` and the default 1920×300
canvas, the pipeline proceeds and both dimensions are within the maximum. -/
theorem C9_dimension_guard_witness :
    (⟨['x'], ['y'], 0, 0, 1920, 300, Colours.transparentBlack,
        Colours.white⟩ : Options).width ≤ maxImageDimension ∧
    (⟨['x'], ['y'], 0, 0, 1920, 300, Colours.transparentBlack,
        Colours.white⟩ : Options).height ≤ maxImageDimension :=
  (C9_dimension_guard (fun _ => 0) (fun _ => 0) [iFlag, ['x'], oFlag, ['y']]
    ⟨['x'], ['y'], 0, 0, 1920, 300, Colours.transparentBlack,
      Colours.white⟩).1 rfl

/-- Claim C7 counterexample: with an existing output file holding bytes
`[1, 2, 3]` and a failing encode, the file at the output path afterwards is
not the previous file (it was deleted at line 168, before the encoder
ran): the claim that an encode failure leaves the previously existing file
in place unchanged is false on the code. The exit code is 1. -/
theorem C7_counterexample :
    (saveOutput (some [1, 2, 3]) none).1 ≠ some [1, 2, 3] ∧
    (saveOutput (some [1, 2, 3]) none).2 = 1 := by
  constructor
  · intro h
    cases h
  · rfl

/-- Claim C7 amended: an existing output file is deleted before encoding
begins, so an encode failure does not preserve the previous file: after a
failed encode the path holds the freshly created (empty) stream file and
the exit code is 1; after a successful full encode the path holds the new
image and the exit code is 0. -/
theorem C7_delete_before_encode (prev : Option (List ℕ)) :
    afterDeleteStep prev = none ∧
    (∀ enc : Option (List ℕ), enc = none →
      (saveOutput prev enc).1 = some [] ∧ (saveOutput prev enc).2 = 1) ∧
    (∀ d : List ℕ,
      (saveOutput prev (some d)).1 = some d ∧ (saveOutput prev (some d)).2 = 0) := by
  have hdel : afterDeleteStep prev = none := by
    cases prev with
    | none => rfl
    | some d => rfl
  refine ⟨hdel, ?_, fun d => ⟨rfl, rfl⟩⟩
  rintro enc rfl
  constructor
  · show (afterOpenStep (afterDeleteStep prev)) = some []
    rw [hdel]
    rfl
  · rfl

/-- Witness for the amended C7 at a concrete previous file `[5]`. -/
theorem C7_delete_before_encode_witness :
    afterDeleteStep (some [5]) = none ∧
    (saveOutput (some [5]) none).1 = some [] ∧
    (saveOutput (some [5]) none).2 = 1 ∧
    (saveOutput (some [5]) (some [7])).1 = some [7] :=
  have h := C7_delete_before_encode (some [5])
  ⟨h.1, (h.2.1 none rfl).1, (h.2.1 none rfl).2, (h.2.2 [7]).1⟩

/-- Claim C1 counterexample: for the empty sample range `N = 0` (with
`W = 1`, column `i = 0`, a column of `[0, W)`), the code's `sampleStart` is
`-1` while the spec's "floor (i/W × N) clamped into [0, N−1]" gives `0`
(no value can lie in the empty interval `[0, -1]`; the clamp of `0` into it
is `0`): the claim's mapping statement fails on the code for `N = 0`. -/
theorem C1_counterexample :
    colSampleStart 1 0 0 = -1 ∧ specColStart 1 0 0 = 0 ∧
    colSampleStart 1 0 0 ≠ specColStart 1 0 0 := by
  have h1 : colSampleStart 1 0 0 = -1 := by
    norm_num [colSampleStart, jlimitI, cTrunc]
  have h2 : specColStart 1 0 0 = 0 := by
    norm_num [specColStart]
  refine ⟨h1, h2, ?_⟩
  rw [h1, h2]
  decide
